import Mathlib

/-!
Verification of the capture-and-record pipeline of the labControl repository
(`src/flir/bfly.py`): the `BflyCamera` recording methods (`start_recording`,
`stop_recording`, `add_frame_to_video`, `capture`, `close`) and the
`CameraProcess.run` capture loop, together with the on-disk TWV container
model.  Python strings are modelled as lists of characters, the filesystem as
an association list from full paths to file contents, machine integers as
`Nat`/`Int`, and the `f64`/`f32` fields that the code merely copies as exact
rationals.  Fallible Python code (raising exceptions) is modelled with
`Except`, the error carrying the program state at the point of the raise.
-/

namespace Bfly

/-- Python `str` modelled as a list of characters. -/
abbrev PyStr := List Char

/-- The character `/` (path separator after normalization). -/
def slashC : Char := '/'

/-- The character `\` (Windows path separator, normalized away). -/
def backslashC : Char := '\\'

/-- The character `.` (extension separator). -/
def dotC : Char := '.'

/-- The character `1` (inserted before the extension on a name collision). -/
def oneC : Char := '1'

/-- The extension string ".twv" (bfly.py line 682). -/
def twvExt : PyStr := [dotC, 't', 'w', 'v']

/-- Python single-character `s.split(sep)`: always returns a non-empty list;
splitting the empty string gives `[""]`. -/
def pySplit (sep : Char) : PyStr → List PyStr
  | [] => [[]]
  | c :: rest =>
    match pySplit sep rest with
    | [] => [[]]
    | p :: ps => if c = sep then [] :: p :: ps else (c :: p) :: ps

/-- Python `sep.join(parts)` for a single-character separator. -/
def pyJoin (sep : Char) : List PyStr → PyStr
  | [] => []
  | [p] => p
  | p :: ps => p ++ sep :: pyJoin sep ps

/-- Python `s.replace(a, b)` for single characters (bfly.py line 685). -/
def pyReplaceChar (a b : Char) (s : PyStr) : PyStr :=
  s.map fun c => if c = a then b else c

/-- The Python exceptions the modelled code can raise. -/
inductive PyErr where
  | fileNotFoundError  -- os.listdir on '' or on a missing directory
  | ioError            -- a failing file write
  | attributeError     -- attribute access on None
deriving DecidableEq

/-- TArCalibrationData (ArTwvStructure): embedded calibration record. -/
structure TArCalibrationData where
  ImageToSampleScale : Rat
deriving DecidableEq

/-- TArFrameROI (ArTwvStructure): region of interest stored in the header. -/
structure TArFrameROI where
  Width : Nat
  Height : Nat
  Top : Nat
  Left : Nat
deriving DecidableEq

/-- TArFrameData (ArTwvStructure): frame-layout part of the video header. -/
structure TArFrameData where
  HeaderSize : Nat
  ROI : TArFrameROI
  BytesPerPixel : Nat
  FrameRate : Rat
  Exposure : Rat   -- milliseconds (the code writes `self.exposure / 1000.0`)
  Gain : Rat
deriving DecidableEq

/-- TArVideoHeader (ArTwvStructure): the fixed-size container header, written
once as an all-zero placeholder at file open and once, backpatched, at stop. -/
structure TArVideoHeader where
  VideoID : Nat
  VideoVersion : Nat
  RecordedFrames : Nat
  VideoHeaderSize : Nat
  CalibrationData : TArCalibrationData
  FrameData : TArFrameData
deriving DecidableEq

/-- TArFrameHeader (ArTwvStructure): the per-frame on-disk header.  The on-disk
`FrameTime` field is the f64 `(timestampNs - sessionStartNs) * 1e-9`; we store
the exact integer nanosecond difference `FrameTimeNs`, of which the f64 value
is a strictly monotone function on the representable range. -/
structure TArFrameHeader where
  FrameNumber : Nat
  FrameTimeNs : Int
deriving DecidableEq

/-- Modelled from the spec: the byte size of `TArVideoHeader`.  The module
`ArTwvStructure` is not under `src/`; spec section 6 fixes the field list with
fixed widths and section 4.2 forbids implicit padding, which (taking magic and
version as u32 next to the listed u32/u8/f32/f64 fields) gives 57 bytes.  No
claim depends on this number; it only populates the `VideoHeaderSize` field. -/
def sizeofTArVideoHeader : Nat := 57

/-- Modelled from the spec: the byte size of `TArFrameHeader`
(u32 frameNumber + f64 frameTimeSeconds). -/
def sizeofTArFrameHeader : Nat := 12

/-- A ctypes structure instantiated with no arguments is zero-initialized:
`ArTwvStructure.TArVideoHeader()` (bfly.py line 701) has every field zero. -/
def placeholderHeader : TArVideoHeader :=
  { VideoID := 0
    VideoVersion := 0
    RecordedFrames := 0
    VideoHeaderSize := 0
    CalibrationData := { ImageToSampleScale := 0 }
    FrameData :=
      { HeaderSize := 0
        ROI := { Width := 0, Height := 0, Top := 0, Left := 0 }
        BytesPerPixel := 0
        FrameRate := 0
        Exposure := 0
        Gain := 0 } }

/-- Calibration constant `config.CALIBRATION = 1/0.3` (flir/conf.py line 39),
modelled as the exact rational; the code only copies it into the header. -/
def CALIBRATION : Rat := 1 / (3 / 10)

/-- The camera-configuration snapshot read while finalizing a header
(`self.width`, `self.height`, `self.offsetX`, `self.offsetY`,
`self.frameRate`, `self.exposure`, `self.gain`; bfly.py lines 736-746).
The float-valued device properties are modelled as exact rationals; the code
only copies them into header fields. -/
structure CamConfig where
  width : Nat
  height : Nat
  offsetX : Nat
  offsetY : Nat
  frameRate : Rat
  exposure : Rat   -- microseconds
  gain : Rat
deriving DecidableEq

/-- The final header built by `stop_recording` (bfly.py lines 724-747). -/
def finalVideoHeader (cfg : CamConfig) (framesRecorded : Nat) : TArVideoHeader :=
  { VideoID := 0x1A57
    VideoVersion := 20
    RecordedFrames := framesRecorded
    VideoHeaderSize := sizeofTArVideoHeader
    CalibrationData := { ImageToSampleScale := CALIBRATION }
    FrameData :=
      { HeaderSize := sizeofTArFrameHeader
        ROI := { Width := cfg.width, Height := cfg.height,
                 Top := cfg.offsetY, Left := cfg.offsetX }
        BytesPerPixel := 1
        FrameRate := cfg.frameRate
        Exposure := cfg.exposure / 1000
        Gain := cfg.gain } }

/-- A converted frame as held in `self.converted_image`: the hardware
timestamp in nanoseconds (`GetTimeStamp()`) and the raw pixel bytes
(`GetData().tobytes()`). -/
structure Image where
  timeStamp : Nat
  data : List Nat
deriving DecidableEq

/-- One FrameRecord in the container: frame header followed by pixel bytes. -/
structure FrameRecord where
  header : TArFrameHeader
  pixelData : List Nat
deriving DecidableEq

/-- The content of one TWV file: the fixed-size header region at offset 0
(`none` before the first header write) and the frame records following it.
The seek(0)-then-write backpatch in `stop_recording` overwrites exactly the
header region, since placeholder and final header are the same ctypes
structure and hence byte-identical in size. -/
structure VideoFileContent where
  headerRegion : Option TArVideoHeader
  frames : List FrameRecord
deriving DecidableEq

/-- The filesystem visible to the code: the set of existing directories and an
association from full file paths to file contents. -/
structure FileSystem where
  dirs : List PyStr
  files : List (PyStr × VideoFileContent)
deriving DecidableEq

/-- Association-list lookup (the content of the file at a full path). -/
def assocGet : List (PyStr × VideoFileContent) → PyStr → Option VideoFileContent
  | [], _ => none
  | (k, v) :: rest, n => if k = n then some v else assocGet rest n

/-- Association-list update-or-insert. -/
def assocSet : List (PyStr × VideoFileContent) → PyStr → VideoFileContent →
    List (PyStr × VideoFileContent)
  | [], n, v => [(n, v)]
  | (k, w) :: rest, n, v =>
    if k = n then (n, v) :: rest else (k, w) :: assocSet rest n v

/-- Content of the file at a full path, if it exists. -/
def lookupFile (fs : FileSystem) (n : PyStr) : Option VideoFileContent :=
  assocGet fs.files n

/-- Directory part of a full path, as the code computes it:
`'/'.join(file_name.split('/')[:-1])` (bfly.py line 688). -/
def dirnameOf (n : PyStr) : PyStr := pyJoin slashC ((pySplit slashC n).dropLast)

/-- Base name of a full path: `file_name.split('/')[-1]` (bfly.py line 693). -/
def basenameOf (n : PyStr) : PyStr := (pySplit slashC n).getLastD []

/-- Model of `os.makedirs(path, exist_ok=True)` (bfly.py line 690). -/
def makedirs (fs : FileSystem) (path : PyStr) : FileSystem :=
  if path ∈ fs.dirs then fs else { fs with dirs := path :: fs.dirs }

/-- Model of `os.listdir(path)` (bfly.py line 693): raises FileNotFoundError
on the empty path (POSIX ENOENT) or a missing directory, otherwise lists the
base names of the files in that directory. -/
def listdir (fs : FileSystem) (path : PyStr) : Except PyErr (List PyStr) :=
  if path = [] then .error .fileNotFoundError
  else if path ∈ fs.dirs then
    .ok (fs.files.filterMap fun kv =>
      if dirnameOf kv.1 = path then some (basenameOf kv.1) else none)
  else .error .fileNotFoundError

/-- Model of `open(file_name, "wb")` (bfly.py line 700): creates the file or
truncates an existing one to empty content. -/
def openWb (fs : FileSystem) (n : PyStr) : FileSystem :=
  { fs with files := assocSet fs.files n { headerRegion := none, frames := [] } }

/-- Writing a `TArVideoHeader` at offset 0 of a file (the placeholder write at
bfly.py line 711, and the seek(0)-then-write backpatch at lines 721 and 750). -/
def writeHeaderRegion (fs : FileSystem) (n : PyStr) (hdr : TArVideoHeader) :
    FileSystem :=
  match assocGet fs.files n with
  | some c => { fs with files := assocSet fs.files n { c with headerRegion := some hdr } }
  | none => { fs with files := assocSet fs.files n { headerRegion := some hdr, frames := [] } }

/-- Appending one FrameRecord at the end of a file (bfly.py lines 761-762). -/
def appendFrameRecord (fs : FileSystem) (n : PyStr) (r : FrameRecord) : FileSystem :=
  match assocGet fs.files n with
  | some c => { fs with files := assocSet fs.files n { c with frames := c.frames ++ [r] } }
  | none => { fs with files := assocSet fs.files n { headerRegion := none, frames := [r] } }

/-- The recording-relevant state of a `BflyCamera` (bfly.py lines 87-92):
`__recording_video`, `__video_file` (modelled as the open file's path, `none`
when the handle is `None` or closed), `_frames_recorded`,
`__video_start_time`, `converted_image`, and the device's streaming flag. -/
structure CamState where
  recording_video : Bool
  video_file : Option PyStr
  frames_recorded : Nat
  video_start_time : Nat
  converted_image : Option Image
  isStreaming : Bool
deriving DecidableEq

/-- The camera state as initialized by `BflyCamera.__init__` (lines 87-92). -/
def initCamState : CamState :=
  { recording_video := false
    video_file := none
    frames_recorded := 0
    video_start_time := 0
    converted_image := none
    isStreaming := false }

/-- The full program state: filesystem plus camera state. -/
structure World where
  fs : FileSystem
  cam : CamState
deriving DecidableEq

/-- Model of `BflyCamera.add_frame_to_video` (bfly.py lines 757-765): writes a
frame header carrying the current frame counter and the timestamp difference
to the session start, then the pixel bytes, then increments the counter.
Attribute access on a `None` current image or file handle raises. -/
def add_frame_to_video (w : World) : Except (PyErr × World) World :=
  match w.cam.converted_image with
  | none => .error (.attributeError, w)    -- self.converted_image.GetTimeStamp() on None
  | some img =>
    match w.cam.video_file with
    | none => .error (.attributeError, w)  -- self.__video_file.write on None
    | some n =>
      let fh : TArFrameHeader :=
        { FrameNumber := w.cam.frames_recorded
          FrameTimeNs := (img.timeStamp : Int) - (w.cam.video_start_time : Int) }
      .ok { fs := appendFrameRecord w.fs n { header := fh, pixelData := img.data }
            cam := { w.cam with frames_recorded := w.cam.frames_recorded + 1 } }

/-- Model of `BflyCamera.capture` (bfly.py lines 776-788): stores the next
delivered frame as the current frame, and if recording is on, appends it to
the video file.  The frame delivered by `GetNextImage` is the argument. -/
def capture (img : Image) (w : World) : Except (PyErr × World) World :=
  let w : World := { w with cam := { w.cam with converted_image := some img } }
  if w.cam.recording_video then add_frame_to_video w else .ok w

/-- Model of `BflyCamera.stop_recording` (bfly.py lines 717-755): when
recording, seeks to offset 0, builds the final header from the camera
configuration and the frame counter, writes it, closes the file, and clears
the recording state; a no-op otherwise.  `writeOk` is the oracle for the
header write's success: on failure the write raises IOError and — the source
has no try/finally — nothing is mutated: the file stays open and
`__recording_video` stays `True`. -/
def stop_recording (cfg : CamConfig) (writeOk : Bool) (w : World) :
    Except (PyErr × World) World :=
  if w.cam.recording_video then
    match w.cam.video_file with
    | none => .error (.attributeError, w)   -- self.__video_file.seek(0) on None
    | some n =>
      let hdr := finalVideoHeader cfg w.cam.frames_recorded
      if writeOk then
        .ok { fs := writeHeaderRegion w.fs n hdr
              cam := { w.cam with recording_video := false, video_file := none } }
      else .error (.ioError, w)
  else .ok w

/-- The collision renaming (bfly.py lines 694-696): `tempName =
file_name.split('.')`; `tempName[-2] += '1'`; `'.'.join(tempName)`.  The call
site guarantees the name ends in ".twv", so the split has at least two parts
and the Python index `-2` is in range. -/
def addOneToName (s : PyStr) : PyStr :=
  let tempName := pySplit dotC s
  pyJoin dotC (tempName.set (tempName.length - 2)
    ((tempName.getD (tempName.length - 2) []) ++ [oneC]))

/-- The name normalization at the head of `start_recording` (bfly.py lines
682-685): append ".twv" unless already present, then turn every backslash
into a forward slash. -/
def normalizeName (f : PyStr) : PyStr :=
  pyReplaceChar backslashC slashC (if twvExt.isSuffixOf f then f else f ++ twvExt)

/-- The target-path resolution of `start_recording` (bfly.py lines 682-696):
normalize the name, create the directory part if there is one, list the
target directory (this raises FileNotFoundError when the directory part is
empty), and insert "1" before the extension when the base name is already
listed there.  Returns the filesystem after `makedirs` together with the
resolved name or the raised exception. -/
def resolveTarget (fs : FileSystem) (f : PyStr) : FileSystem × Except PyErr PyStr :=
  let file_name := normalizeName f
  let path := pyJoin slashC ((pySplit slashC file_name).dropLast)
  let fs := if path ≠ [] then makedirs fs path else fs
  match listdir fs path with
  | .error e => (fs, .error e)
  | .ok entries =>
    (fs, .ok (if (pySplit slashC file_name).getLastD [] ∈ entries
              then addOneToName file_name else file_name))

/-- Model of `BflyCamera.start_recording` (bfly.py lines 676-715).  When not
already recording: resolve the target name (`resolveTarget`, lines 682-696),
open the file, begin streaming if needed, capture a frame synchronously if
there is no current frame (recording is still off, so this only sets the
current frame — see `capture_not_recording`), write the zero placeholder
header, reset the frame counter, set the recording flag, and record the
current frame's timestamp as the session start.  `nextImg` is the frame
`GetNextImage` would deliver to the synchronous capture. -/
def start_recording (nextImg : Image) (w : World) (f : PyStr) :
    Except (PyErr × World) World :=
  if w.cam.recording_video then .ok w
  else
    match resolveTarget w.fs f with
    | (fs, .error e) => .error (e, { w with fs := fs })
    | (fs, .ok file_name) =>
      let fs := openWb fs file_name
      let cam := { w.cam with video_file := some file_name }
      let cam := if !cam.isStreaming then { cam with isStreaming := true } else cam
      let cam :=
        if cam.converted_image.isNone then { cam with converted_image := some nextImg }
        else cam
      let fs := writeHeaderRegion fs file_name placeholderHeader
      .ok { fs := fs
            cam := { cam with
                     frames_recorded := 0
                     recording_video := true
                     video_start_time := (cam.converted_image.map Image.timeStamp).getD 0 } }

/-- Model of `BflyCamera.close` (bfly.py lines 790-802): ends acquisition if
streaming and deinitializes the device; it never touches the video file. -/
def closeCam (w : World) : World :=
  { w with cam := { w.cam with isStreaming := false } }

/-- The control-channel state shared with the supervising process: the three
multiprocessing events `stopped`, `recStart`, `recStop` and the shared file
name `recName['fname']` (bfly.py lines 820-828). -/
structure Signals where
  stopped : Bool
  recStart : Bool
  recStop : Bool
  fname : PyStr
deriving DecidableEq

/-- The environment of one loop iteration: which flags the controller raised
since the previous iteration (events are only ever set by the controller and
only cleared by the loop), the value it stored in `recName['fname']`, the
frame `GetNextImage` delivers on this tick, and the success oracle for a
header write performed on this tick. -/
structure TickEnv where
  setStopped : Bool
  setRecStart : Bool
  setRecStop : Bool
  setFname : Option PyStr
  frame : Image
  headerWriteOk : Bool
deriving DecidableEq

/-- Applying the controller's actions for one tick to the signal state. -/
def applyController (sig : Signals) (e : TickEnv) : Signals :=
  { stopped := sig.stopped || e.setStopped
    recStart := sig.recStart || e.setRecStart
    recStop := sig.recStop || e.setRecStop
    fname := e.setFname.getD sig.fname }

/-- One iteration of the `CameraProcess.run` while-body (bfly.py lines
846-859): `c.capture()`; then, if `recStop` is set, `c.stop_recording()`
(the flag is NOT cleared — the source has no `self.recStop.clear()`); then,
if `recStart` is set, `c.start_recording(self.recName['fname'])` followed by
`self.recStart.clear()`.  An exception anywhere propagates (carrying the
state at the raise) to the `except` clause of `run`. -/
def tick (cfg : CamConfig) (e : TickEnv) (sig : Signals) (w : World) :
    Except (PyErr × World) (Signals × World) :=
  match capture e.frame w with
  | .error ew => .error ew
  | .ok w1 =>
    match (if sig.recStop then stop_recording cfg e.headerWriteOk w1 else .ok w1) with
    | .error ew => .error ew
    | .ok w2 =>
      if sig.recStart then
        match start_recording e.frame w2 sig.fname with
        | .error ew => .error ew
        | .ok w3 => .ok ({ sig with recStart := false }, w3)
      else .ok (sig, w2)

/-- The `CameraProcess.run` while loop (bfly.py lines 846-867), driven by a
finite trace of tick environments: before each iteration the controller's
pending actions are applied; the loop condition `not self.stopped.is_set()`
is then checked; a tick that raises exits the loop through the `except`
clause with the state at the raise.  An exhausted trace is the observation
point of a still-running loop. -/
def runLoop (cfg : CamConfig) :
    List TickEnv → Signals → World → Signals × World × Option PyErr
  | [], sig, w => (sig, w, none)
  | e :: rest, sig, w =>
    let sig := applyController sig e
    if sig.stopped then (sig, w, none)
    else
      match tick cfg e sig w with
      | .ok (sig', w') => runLoop cfg rest sig' w'
      | .error (err, w') => (sig, w', some err)

/-- The camera state after the startup part of `CameraProcess.run` (bfly.py
lines 830-843): a fresh `BflyCamera` with acquisition begun. -/
def runStartupWorld (fs : FileSystem) : World :=
  { fs := fs, cam := { initCamState with isStreaming := true } }

/-- All signals down, empty shared file name: the state of the events when
the `CameraProcess` is created. -/
def initSignals : Signals :=
  { stopped := false, recStart := false, recStop := false, fname := [] }

/-- Model of `CameraProcess.run` around the loop (bfly.py lines 830-876):
startup, the while loop, and the `finally` block, whose `del c` invokes
`BflyCamera.close` — which never finalizes or closes the video file. -/
def cameraProcessRun (cfg : CamConfig) (trace : List TickEnv) (fs : FileSystem) :
    Signals × World × Option PyErr :=
  let (sig', w', err) := runLoop cfg trace initSignals (runStartupWorld fs)
  (sig', closeCam w', err)

/-! Basic lemmas about the Python-string model. -/

lemma pySplit_ne_nil (sep : Char) (s : PyStr) : pySplit sep s ≠ [] := by
  cases s with
  | nil => simp [pySplit]
  | cons c rest =>
    simp only [pySplit]
    cases pySplit sep rest with
    | nil => simp
    | cons p ps =>
      by_cases h : c = sep <;> simp [h]

lemma pyJoin_cons_cons (sep : Char) (c : Char) (p : PyStr) (ps : List PyStr) :
    pyJoin sep ((c :: p) :: ps) = c :: pyJoin sep (p :: ps) := by
  cases ps <;> simp [pyJoin]

lemma pyJoin_pySplit (sep : Char) (s : PyStr) : pyJoin sep (pySplit sep s) = s := by
  induction s with
  | nil => simp [pySplit, pyJoin]
  | cons c rest ih =>
    rcases hs : pySplit sep rest with _ | ⟨p, ps⟩
    · exact absurd hs (pySplit_ne_nil sep rest)
    · rw [hs] at ih
      by_cases h : c = sep
      · subst h
        simp [pySplit, hs, pyJoin, ih]
      · simp only [pySplit, hs, if_neg h]
        rw [pyJoin_cons_cons, ih]

lemma pyJoin_length (sep : Char) (l : List PyStr) :
    (pyJoin sep l).length = (l.map List.length).sum + (l.length - 1) := by
  induction l with
  | nil => simp [pyJoin]
  | cons p ps ih =>
    cases ps with
    | nil => simp [pyJoin]
    | cons q qs =>
      simp only [pyJoin, List.length_append, List.length_cons, List.map_cons,
        List.sum_cons] at ih ⊢
      omega

lemma sum_map_length_set (l : List PyStr) (i : Nat) (x : Char) (hi : i < l.length) :
    ((l.set i ((l.getD i []) ++ [x])).map List.length).sum
      = (l.map List.length).sum + 1 := by
  induction l generalizing i with
  | nil => simp at hi
  | cons p ps ih =>
    cases i with
    | zero =>
      simp only [List.set, List.getD_cons_zero, List.map_cons, List.sum_cons,
        List.length_append, List.length_cons, List.length_nil]
      omega
    | succ j =>
      simp only [List.length_cons, Nat.succ_lt_succ_iff] at hi
      simp only [List.set, List.getD_cons_succ, List.map_cons, List.sum_cons]
      rw [show ((ps.set j (ps.getD j [] ++ [x])).map List.length).sum
            = (ps.map List.length).sum + 1 from ih j hi]
      omega

lemma mem_of_isSuffixOf {l s : PyStr} {c : Char} (h : l.isSuffixOf s) (hc : c ∈ l) :
    c ∈ s := by
  have hs : l <:+ s := by simpa [List.isSuffixOf_iff_suffix] using h
  exact hs.sublist.mem hc

lemma pySplit_length_ge_two (sep : Char) (s : PyStr) (h : sep ∈ s) :
    2 ≤ (pySplit sep s).length := by
  induction s with
  | nil => simp at h
  | cons c rest ih =>
    rcases hs : pySplit sep rest with _ | ⟨p, ps⟩
    · exact absurd hs (pySplit_ne_nil sep rest)
    · by_cases hcs : c = sep
      · simp [pySplit, hs, hcs]
      · have hrest : sep ∈ rest := by
          rcases List.mem_cons.mp h with h1 | h1
          · exact absurd h1.symm hcs
          · exact h1
        have h2 := ih hrest
        rw [hs] at h2
        simp only [pySplit, hs, if_neg hcs, List.length_cons] at h2 ⊢
        omega

lemma addOneToName_length (s : PyStr) (h : 2 ≤ (pySplit dotC s).length) :
    (addOneToName s).length = s.length + 1 := by
  unfold addOneToName
  have hi : (pySplit dotC s).length - 2 < (pySplit dotC s).length := by omega
  rw [pyJoin_length, sum_map_length_set _ _ _ hi, List.length_set]
  have := pyJoin_length dotC (pySplit dotC s)
  rw [pyJoin_pySplit] at this
  omega

lemma addOneToName_ne (s : PyStr) (h : twvExt.isSuffixOf s) : addOneToName s ≠ s := by
  intro heq
  have hdot : dotC ∈ s := mem_of_isSuffixOf h (by simp [twvExt])
  have := addOneToName_length s (pySplit_length_ge_two dotC s hdot)
  rw [heq] at this
  omega

lemma pyReplaceChar_not_mem (a b : Char) (s : PyStr) (h : a ∉ s) :
    pyReplaceChar a b s = s := by
  unfold pyReplaceChar
  conv_rhs => rw [← List.map_id s]
  refine List.map_congr_left fun c hc => ?_
  simp only [id]
  rw [if_neg]
  intro hca
  exact h (hca ▸ hc)

/-! Basic lemmas about the filesystem model. -/

lemma assocGet_assocSet_self (l : List (PyStr × VideoFileContent)) (n : PyStr)
    (v : VideoFileContent) : assocGet (assocSet l n v) n = some v := by
  induction l with
  | nil => simp [assocGet, assocSet]
  | cons kv rest ih =>
    obtain ⟨k, w⟩ := kv
    by_cases h : k = n <;> simp [assocGet, assocSet, h, ih]

lemma assocGet_assocSet_ne (l : List (PyStr × VideoFileContent)) (n m : PyStr)
    (v : VideoFileContent) (h : m ≠ n) :
    assocGet (assocSet l n v) m = assocGet l m := by
  induction l with
  | nil => simp [assocGet, assocSet, Ne.symm h]
  | cons kv rest ih =>
    obtain ⟨k, w⟩ := kv
    by_cases hk : k = n
    · subst hk
      simp [assocGet, assocSet, Ne.symm h]
    · by_cases hm : k = m
      · subst hm
        simp [assocGet, assocSet, hk]
      · simp [assocGet, assocSet, hk, hm, ih]

lemma assocGet_mem {l : List (PyStr × VideoFileContent)} {n : PyStr}
    {c : VideoFileContent} (h : assocGet l n = some c) : (n, c) ∈ l := by
  induction l with
  | nil => simp [assocGet] at h
  | cons kv rest ih =>
    obtain ⟨k, w⟩ := kv
    by_cases hk : k = n
    · subst hk
      simp only [assocGet, if_pos, Option.some.injEq] at h
      subst h
      exact List.mem_cons_self _ _
    · simp only [assocGet] at h
      rw [if_neg hk] at h
      exact List.mem_cons_of_mem _ (ih h)

lemma lookupFile_openWb_self (fs : FileSystem) (n : PyStr) :
    lookupFile (openWb fs n) n = some { headerRegion := none, frames := [] } := by
  simp [lookupFile, openWb, assocGet_assocSet_self]

lemma lookupFile_openWb_ne (fs : FileSystem) (n m : PyStr) (h : m ≠ n) :
    lookupFile (openWb fs n) m = lookupFile fs m := by
  simp [lookupFile, openWb, assocGet_assocSet_ne _ _ _ _ h]

lemma lookupFile_writeHeaderRegion_self (fs : FileSystem) (n : PyStr)
    (hdr : TArVideoHeader) (c : VideoFileContent) (h : lookupFile fs n = some c) :
    lookupFile (writeHeaderRegion fs n hdr) n
      = some { c with headerRegion := some hdr } := by
  simp only [lookupFile, writeHeaderRegion] at h ⊢
  rw [h]
  simp [assocGet_assocSet_self]

lemma lookupFile_writeHeaderRegion_ne (fs : FileSystem) (n m : PyStr)
    (hdr : TArVideoHeader) (h : m ≠ n) :
    lookupFile (writeHeaderRegion fs n hdr) m = lookupFile fs m := by
  simp only [lookupFile, writeHeaderRegion]
  cases assocGet fs.files n <;> simp [assocGet_assocSet_ne _ _ _ _ h]

lemma lookupFile_appendFrameRecord_self (fs : FileSystem) (n : PyStr)
    (r : FrameRecord) (c : VideoFileContent) (h : lookupFile fs n = some c) :
    lookupFile (appendFrameRecord fs n r) n
      = some { c with frames := c.frames ++ [r] } := by
  simp only [lookupFile, appendFrameRecord] at h ⊢
  rw [h]
  simp [assocGet_assocSet_self]

lemma lookupFile_makedirs (fs : FileSystem) (path n : PyStr) :
    lookupFile (makedirs fs path) n = lookupFile fs n := by
  unfold makedirs
  by_cases h : path ∈ fs.dirs <;> simp [h, lookupFile]

lemma makedirs_mem (fs : FileSystem) (path : PyStr) :
    path ∈ (makedirs fs path).dirs := by
  unfold makedirs
  by_cases h : path ∈ fs.dirs <;> simp [h]

/-! Characterizations of the camera operations. -/

/-- A call to `capture` while `__recording_video` is `False` only stores the
new frame as the current frame (bfly.py lines 782-788): this is the behaviour
of the synchronous `self.capture()` inside `start_recording`. -/
lemma capture_not_recording (img : Image) (w : World)
    (h : w.cam.recording_video = false) :
    capture img w = .ok { w with cam := { w.cam with converted_image := some img } } := by
  simp [capture, h]

/-- The FrameRecord `add_frame_to_video` produces for the image `img` when
`k` frames have been recorded in a session started at timestamp `startTs`. -/
def mkRecord (startTs k : Nat) (img : Image) : FrameRecord :=
  { header := { FrameNumber := k
                FrameTimeNs := (img.timeStamp : Int) - (startTs : Nat) }
    pixelData := img.data }

/-- The FrameRecords produced by consecutive captures of `imgs` in a session
started at timestamp `startTs` with `k` frames already recorded. -/
def sessionRecords (startTs : Nat) : Nat → List Image → List FrameRecord
  | _, [] => []
  | k, i :: is => mkRecord startTs k i :: sessionRecords startTs (k + 1) is

/-- N consecutive iterations of the capture loop on which no control signal is
pending: each such tick executes exactly `c.capture()` (bfly.py line 847). -/
def captureMany (imgs : List Image) (w : World) : Except (PyErr × World) World :=
  match imgs with
  | [] => .ok w
  | i :: is =>
    match capture i w with
    | .ok w' => captureMany is w'
    | .error ew => .error ew

/-- An active recording session: the recording flag is set, the camera holds
an open handle on the file named `n`, and that file has content `c`. -/
def ActiveSession (w : World) (n : PyStr) (c : VideoFileContent) : Prop :=
  w.cam.recording_video = true ∧ w.cam.video_file = some n ∧
    lookupFile w.fs n = some c

lemma sessionRecords_length (s k : Nat) (imgs : List Image) :
    (sessionRecords s k imgs).length = imgs.length := by
  induction imgs generalizing k with
  | nil => simp [sessionRecords]
  | cons i is ih => simp [sessionRecords, ih]

lemma sessionRecords_map_frameNumber (s k : Nat) (imgs : List Image) :
    (sessionRecords s k imgs).map (fun r => r.header.FrameNumber)
      = List.range' k imgs.length := by
  induction imgs generalizing k with
  | nil => simp [sessionRecords]
  | cons i is ih => simp [sessionRecords, mkRecord, List.range'_succ, ih]

lemma sessionRecords_map_frameTime (s k : Nat) (imgs : List Image) :
    (sessionRecords s k imgs).map (fun r => r.header.FrameTimeNs)
      = imgs.map (fun i => (i.timeStamp : Int) - (s : Nat)) := by
  induction imgs generalizing k with
  | nil => simp [sessionRecords]
  | cons i is ih => simp [sessionRecords, mkRecord, ih]

/-- One capture during an active session: the current frame is replaced, one
FrameRecord is appended to the open file, and the counter is incremented. -/
lemma capture_active {w : World} {n : PyStr} {c : VideoFileContent} (img : Image)
    (h : ActiveSession w n c) :
    capture img w = .ok
      { fs := appendFrameRecord w.fs n
          (mkRecord w.cam.video_start_time w.cam.frames_recorded img),
        cam := { w.cam with
                 converted_image := some img,
                 frames_recorded := w.cam.frames_recorded + 1 } } := by
  obtain ⟨h1, h2, _⟩ := h
  simp [capture, add_frame_to_video, h1, h2, mkRecord]

/-- N captures during an active session append exactly the session records
for the captured images, preserve the session identity and start time, and
advance the counter by N. -/
lemma captureMany_active (imgs : List Image) :
    ∀ (w : World) (n : PyStr) (c : VideoFileContent), ActiveSession w n c →
    ∃ w', captureMany imgs w = .ok w' ∧
      w'.cam.recording_video = true ∧
      w'.cam.video_file = some n ∧
      w'.cam.video_start_time = w.cam.video_start_time ∧
      w'.cam.frames_recorded = w.cam.frames_recorded + imgs.length ∧
      lookupFile w'.fs n = some
        { headerRegion := c.headerRegion,
          frames := c.frames
            ++ sessionRecords w.cam.video_start_time w.cam.frames_recorded imgs } := by
  induction imgs with
  | nil =>
    intro w n c h
    exact ⟨w, rfl, h.1, h.2.1, rfl, by simp, by simpa [sessionRecords] using h.2.2⟩
  | cons i is ih =>
    intro w n c h
    have hcap := capture_active i h
    set w1 : World :=
      { fs := appendFrameRecord w.fs n
          (mkRecord w.cam.video_start_time w.cam.frames_recorded i),
        cam := { w.cam with
                 converted_image := some i,
                 frames_recorded := w.cam.frames_recorded + 1 } } with hw1
    have hact1 : ActiveSession w1 n
        { c with frames := c.frames
            ++ [mkRecord w.cam.video_start_time w.cam.frames_recorded i] } := by
      refine ⟨h.1, h.2.1, ?_⟩
      simpa [hw1] using
        lookupFile_appendFrameRecord_self w.fs n
          (mkRecord w.cam.video_start_time w.cam.frames_recorded i) c h.2.2
    obtain ⟨w', hrun, hr, hf, hst, hcount, hlook⟩ := ih w1 n _ hact1
    refine ⟨w', ?_, hr, hf, ?_, ?_, ?_⟩
    · simp only [captureMany, hcap, hrun]
    · simpa [hw1] using hst
    · rw [hcount]
      simp only [List.length_cons]
      have hw1c : w1.cam.frames_recorded = w.cam.frames_recorded + 1 := by simp [hw1]
      omega
    · rw [hlook]
      simp only [hw1, sessionRecords, List.append_assoc, List.singleton_append]

/-- A stop while a session is active finalizes the header (with the current
frame count) and clears the recording state. -/
lemma stop_recording_active {w : World} {n : PyStr} {c : VideoFileContent}
    (cfg : CamConfig) (h : ActiveSession w n c) :
    stop_recording cfg true w = .ok
      { fs := writeHeaderRegion w.fs n (finalVideoHeader cfg w.cam.frames_recorded)
        cam := { w.cam with recording_video := false, video_file := none } } := by
  obtain ⟨h1, h2, _⟩ := h
  simp [stop_recording, h1, h2]

/-- A stop while no session is active is a no-op (bfly.py line 719). -/
lemma stop_recording_not_recording (cfg : CamConfig) (writeOk : Bool) (w : World)
    (h : w.cam.recording_video = false) :
    stop_recording cfg writeOk w = .ok w := by
  simp [stop_recording, h]

/-- A failing header write during an active stop: the write raises IOError
and nothing is mutated — there is no try/finally in bfly.py lines 717-755. -/
lemma stop_recording_write_fails (cfg : CamConfig) (w : World) (n : PyStr)
    (h1 : w.cam.recording_video = true) (h2 : w.cam.video_file = some n) :
    stop_recording cfg false w = .error (.ioError, w) := by
  simp [stop_recording, h1, h2]

/-- Successful `start_recording` from an idle camera: some file name `n` was
resolved and opened with the placeholder header written, the counter was
reset, the flag raised, and the session start time is the timestamp of the
frame current at the end of the call (the already-current frame if any,
otherwise the synchronously captured one). -/
lemma start_recording_ok {img : Image} {w w' : World} {f : PyStr}
    (hrec : w.cam.recording_video = false)
    (h : start_recording img w f = .ok w') :
    ∃ n, w'.cam.video_file = some n ∧
      w'.cam.recording_video = true ∧
      w'.cam.frames_recorded = 0 ∧
      w'.cam.video_start_time
        = (match w.cam.converted_image with
           | some i => i.timeStamp
           | none => img.timeStamp) ∧
      lookupFile w'.fs n
        = some { headerRegion := some placeholderHeader, frames := [] } := by
  unfold start_recording at h
  rw [hrec] at h
  simp only [Bool.false_eq_true, if_false] at h
  rcases hres : resolveTarget w.fs f with ⟨fs1, res⟩
  rw [hres] at h
  cases res with
  | error e => simp at h
  | ok n =>
    simp only at h
    injection h with h
    subst h
    have hlook : lookupFile (writeHeaderRegion (openWb fs1 n) n placeholderHeader) n
        = some { headerRegion := some placeholderHeader, frames := [] } := by
      rw [lookupFile_writeHeaderRegion_self _ _ _ _ (lookupFile_openWb_self fs1 n)]
    refine ⟨n, ?_, ?_, ?_, ?_, ?_⟩ <;>
      rcases hc : w.cam.converted_image with _ | i <;>
      by_cases hstr : w.cam.isStreaming <;>
      simp [hc, hstr, hlook]

/-! Concrete fixtures used by witness and counterexample theorems. -/

/-- The directory name "d". -/
def dirD : PyStr := ['d']

/-- The path "d/a.twv". -/
def nameA : PyStr := ['d', '/', 'a', '.', 't', 'w', 'v']

/-- The path "d/a1.twv" (collision-renamed form of "d/a.twv"). -/
def nameA1 : PyStr := ['d', '/', 'a', '1', '.', 't', 'w', 'v']

/-- The path "d/b.twv". -/
def nameB : PyStr := ['d', '/', 'b', '.', 't', 'w', 'v']

/-- The bare file name "clip.twv" (no directory separator). -/
def bareName : PyStr := ['c', 'l', 'i', 'p', '.', 't', 'w', 'v']

/-- A one-pixel test frame with hardware timestamp `t` nanoseconds. -/
def imgD (t : Nat) : Image := { timeStamp := t, data := [7] }

/-- A filesystem with the single empty directory "d". -/
def fsD : FileSystem := { dirs := [dirD], files := [] }

/-- A fixed camera-configuration snapshot. -/
def cfgD : CamConfig :=
  { width := 4, height := 3, offsetX := 2, offsetY := 1
    frameRate := 10, exposure := 30000, gain := 0 }

/-- Extracting the success state of an operation (default for the error case). -/
def okWorld (d : World) : Except (PyErr × World) World → World
  | .ok w => w
  | .error _ => d

/-- Concrete session: the idle startup world. -/
def c1w0 : World := runStartupWorld fsD

/-- Concrete session: after `start_recording` to "d/a.twv" (frame ts 0). -/
def c1w1 : World := okWorld c1w0 (start_recording (imgD 0) c1w0 nameA)

/-- Concrete session: after capturing frames with timestamps 10 and 20 ns. -/
def c1w2 : World := okWorld c1w0 (captureMany [imgD 10, imgD 20] c1w1)

/-- Concrete session: after `stop_recording`. -/
def c1w3 : World := okWorld c1w0 (stop_recording cfgD true c1w2)

/-- C1: for every recording session in which N frames are captured while
recording is active (N ticks between start-recording and stop-recording),
the resulting file contains exactly N FrameRecords whose FrameNumber fields
are 0..N-1 in strictly increasing order with no gaps, and the finalized
header's RecordedFrames field equals N. -/
theorem session_records_exactly_n (cfg : CamConfig) (img0 : Image)
    (imgs : List Image) (w0 w1 w2 w3 : World) (f : PyStr)
    (hrec : w0.cam.recording_video = false)
    (h1 : start_recording img0 w0 f = .ok w1)
    (h2 : captureMany imgs w1 = .ok w2)
    (h3 : stop_recording cfg true w2 = .ok w3) :
    ∃ n c, w1.cam.video_file = some n ∧
      lookupFile w3.fs n = some c ∧
      c.frames.length = imgs.length ∧
      (c.frames.map fun r => r.header.FrameNumber) = List.range imgs.length ∧
      ∃ hdr, c.headerRegion = some hdr ∧ hdr.RecordedFrames = imgs.length := by
  obtain ⟨n, hvf, hrv, hfr, _, hlook⟩ := start_recording_ok hrec h1
  obtain ⟨w2', hrun, hr2, hf2, _, hcount2, hlook2⟩ :=
    captureMany_active imgs w1 n _ ⟨hrv, hvf, hlook⟩
  rw [h2] at hrun
  injection hrun with hw2
  subst hw2
  have hstop := stop_recording_active cfg
    (⟨hr2, hf2, hlook2⟩ : ActiveSession w2 n _)
  rw [h3] at hstop
  injection hstop with hw3
  subst hw3
  refine ⟨n,
    { headerRegion := some (finalVideoHeader cfg w2.cam.frames_recorded)
      frames := sessionRecords w1.cam.video_start_time w1.cam.frames_recorded imgs },
    hvf, ?_, ?_, ?_, ?_⟩
  · rw [lookupFile_writeHeaderRegion_self _ _ _ _ hlook2]
    simp
  · simp [sessionRecords_length]
  · rw [hfr, sessionRecords_map_frameNumber, List.range_eq_range']
  · exact ⟨_, rfl, by rw [hcount2, hfr]; simp [finalVideoHeader]⟩

/-- Witness for `session_records_exactly_n`: a concrete two-frame session to
"d/a.twv" yields two records numbered 0 and 1 and a header counting 2. -/
theorem session_records_exactly_n_witness :
    ∃ n c, c1w1.cam.video_file = some n ∧
      lookupFile c1w3.fs n = some c ∧
      c.frames.length = 2 ∧
      (c.frames.map fun r => r.header.FrameNumber) = List.range 2 ∧
      ∃ hdr, c.headerRegion = some hdr ∧ hdr.RecordedFrames = 2 :=
  session_records_exactly_n cfgD (imgD 0) [imgD 10, imgD 20]
    c1w0 c1w1 c1w2 c1w3 nameA rfl rfl rfl rfl

/-- Concrete session for C2: one capture (hardware timestamp 100000000 ns)
after a session started on a world with no current frame (the synchronous
start-capture delivered timestamp 0). -/
def c2w2 : World := okWorld c1w0 (capture (imgD 100000000) c1w1)

/-- C2 counterexample: in a session started at hardware timestamp 0, the
first recorded frame (the one captured on the tick after start-recording was
serviced) carries FrameTime 100000000 ns × 1e-9 = 0.1 s, not 0.0: the session
start time is the timestamp of the frame that was current when the session
started, not of the first frame recorded. -/
theorem first_frame_time_not_zero :
    ((lookupFile c2w2.fs nameA).map fun c =>
        c.frames.map fun r => r.header.FrameTimeNs)
      = some [(100000000 : Int)] ∧
    ((lookupFile c2w2.fs nameA).map fun c =>
        c.frames.map fun r => r.header.FrameTimeNs)
      ≠ some [(0 : Int)] := by
  refine ⟨rfl, ?_⟩
  intro h
  rw [show ((lookupFile c2w2.fs nameA).map fun c =>
      c.frames.map fun r => r.header.FrameTimeNs) = some [(100000000 : Int)]
    from rfl] at h
  simp at h

/-- C2 (amended): every FrameTime written during a session is exactly
(timestampNs − sessionStartNs) × 1e-9, and the values are non-decreasing
whenever the hardware timestamps are; but the session start is the timestamp
of the frame current at start-recording time, so the first recorded frame's
FrameTime is the (generally positive) timestamp gap to that frame, 0.0 only
when the two timestamps coincide. -/
theorem frame_times_relative (img0 : Image) (imgs : List Image)
    (w0 w1 w2 : World) (f : PyStr)
    (hrec : w0.cam.recording_video = false)
    (h1 : start_recording img0 w0 f = .ok w1)
    (h2 : captureMany imgs w1 = .ok w2) :
    ∃ n c, w1.cam.video_file = some n ∧
      lookupFile w2.fs n = some c ∧
      (c.frames.map fun r => r.header.FrameTimeNs)
        = imgs.map (fun i => (i.timeStamp : Int) - (w1.cam.video_start_time : Nat)) ∧
      w1.cam.video_start_time
        = (match w0.cam.converted_image with
           | some i => i.timeStamp
           | none => img0.timeStamp) ∧
      (List.Chain' (· ≤ ·) (imgs.map Image.timeStamp) →
        List.Chain' (· ≤ ·) (c.frames.map fun r => r.header.FrameTimeNs)) := by
  obtain ⟨n, hvf, hrv, hfr, hst, hlook⟩ := start_recording_ok hrec h1
  obtain ⟨w2', hrun, _, _, _, _, hlook2⟩ :=
    captureMany_active imgs w1 n _ ⟨hrv, hvf, hlook⟩
  rw [h2] at hrun
  injection hrun with hw2
  subst hw2
  have htimes :
      ((sessionRecords w1.cam.video_start_time w1.cam.frames_recorded imgs).map
        fun r => r.header.FrameTimeNs)
        = imgs.map (fun i => (i.timeStamp : Int) - (w1.cam.video_start_time : Nat)) :=
    sessionRecords_map_frameTime _ _ _
  refine ⟨n,
    { headerRegion := some placeholderHeader
      frames := sessionRecords w1.cam.video_start_time w1.cam.frames_recorded imgs },
    hvf, by simpa using hlook2, htimes, hst, ?_⟩
  intro hmono
  rw [htimes, List.chain'_map]
  rw [List.chain'_map] at hmono
  refine hmono.imp fun a b hab => ?_
  simp only at hab ⊢
  omega

/-- Witness for `frame_times_relative`: the concrete two-frame session of C1
(start at timestamp 0, captures at 10 and 20 ns). -/
theorem frame_times_relative_witness :
    ∃ n c, c1w1.cam.video_file = some n ∧
      lookupFile c1w2.fs n = some c ∧
      (c.frames.map fun r => r.header.FrameTimeNs)
        = [imgD 10, imgD 20].map
            (fun i => (i.timeStamp : Int) - (c1w1.cam.video_start_time : Nat)) ∧
      c1w1.cam.video_start_time
        = (match c1w0.cam.converted_image with
           | some i => i.timeStamp
           | none => (imgD 0).timeStamp) ∧
      (List.Chain' (· ≤ ·) ([imgD 10, imgD 20].map Image.timeStamp) →
        List.Chain' (· ≤ ·) (c.frames.map fun r => r.header.FrameTimeNs)) :=
  frame_times_relative (imgD 0) [imgD 10, imgD 20] c1w0 c1w1 c1w2 nameA rfl rfl rfl

/-- C3 counterexample: at a concrete recording state (the two-frame session
of C1, still active), a failing header write makes `stop_recording` raise
IOError with the state at the raise unchanged: the recording flag is still
set and the file handle still open, so the session is NOT considered closed
and the file is NOT closed. -/
theorem stop_io_failure_counterexample :
    stop_recording cfgD false c1w2 = .error (.ioError, c1w2) ∧
    c1w2.cam.recording_video = true ∧
    c1w2.cam.video_file = some nameA := ⟨rfl, rfl, rfl⟩

/-- C3 (amended): if the header rewrite during `stop_recording` fails with an
I/O error, the exception propagates with no state change at all — the source
has no try/finally — so the file is not closed and the session stays active;
the capture loop's generic exception handler then terminates the whole loop
with the session never finalized. -/
theorem stop_write_failure_no_cleanup (cfg : CamConfig) (w : World) (n : PyStr)
    (h1 : w.cam.recording_video = true) (h2 : w.cam.video_file = some n) :
    stop_recording cfg false w = .error (.ioError, w) :=
  stop_recording_write_fails cfg w n h1 h2

/-- Witness for `stop_write_failure_no_cleanup` at the concrete recording
state of C1's session. -/
theorem stop_write_failure_no_cleanup_witness :
    stop_recording cfgD false c1w2 = .error (.ioError, c1w2) :=
  stop_write_failure_no_cleanup cfgD c1w2 nameA rfl rfl

/-- The `if not self.__recording_video` guard (bfly.py line 679): a start
request while already recording does nothing at all. -/
lemma start_recording_noop (img : Image) (w : World) (f : PyStr)
    (h : w.cam.recording_video = true) :
    start_recording img w f = .ok w := by
  simp [start_recording, h]

/-- C6: `start_recording` is idempotent while a session is active: a second
call without an intervening stop opens no second file, writes no second
placeholder, and resets neither the counter nor the session start timestamp —
the entire state (filesystem and camera) is exactly the state after the first
call. -/
theorem start_recording_idempotent_while_active (img : Image) (w : World)
    (f : PyStr) (h : w.cam.recording_video = true) :
    start_recording img w f = .ok w :=
  start_recording_noop img w f h

/-- Witness for `start_recording_idempotent_while_active`: a second start (to
a different name, with a fresh frame) in the middle of C1's session returns
the state unchanged. -/
theorem start_recording_idempotent_while_active_witness :
    start_recording (imgD 99) c1w2 nameB = .ok c1w2 :=
  start_recording_idempotent_while_active (imgD 99) c1w2 nameB rfl

/-- Splitting on a character that does not occur returns the whole string as
the single chunk (as in Python). -/
lemma pySplit_not_mem (sep : Char) (s : PyStr) (h : sep ∉ s) :
    pySplit sep s = [s] := by
  induction s with
  | nil => simp [pySplit]
  | cons c rest ih =>
    have hc : c ≠ sep := fun hc => h (hc ▸ List.mem_cons_self c rest)
    have hr : sep ∉ rest := fun hr => h (List.mem_cons_of_mem c hr)
    simp [pySplit, ih hr, hc]

/-- A bare file name (no separator of either kind) still has no separator
after the extension fix and backslash normalization. -/
lemma normalizeName_bare (f : PyStr) (hsl : slashC ∉ f) (hbs : backslashC ∉ f) :
    slashC ∉ normalizeName f := by
  have h1 : backslashC ∉ (if twvExt.isSuffixOf f then f else f ++ twvExt) := by
    by_cases hsuf : twvExt.isSuffixOf f
    · simpa [hsuf] using hbs
    · simp only [hsuf, Bool.false_eq_true, if_false]
      exact List.not_mem_append hbs (by decide)
  have h2 : slashC ∉ (if twvExt.isSuffixOf f then f else f ++ twvExt) := by
    by_cases hsuf : twvExt.isSuffixOf f
    · simpa [hsuf] using hsl
    · simp only [hsuf, Bool.false_eq_true, if_false]
      exact List.not_mem_append hsl (by decide)
  rw [normalizeName, pyReplaceChar_not_mem _ _ _ h1]
  exact h2

/-- C10: `start_recording` on an idle camera with a bare file name (no
directory separator) computes an empty directory part, skips `makedirs`
(`if path:` is falsy), and then calls `os.listdir('')`, which raises
FileNotFoundError before any file is opened: the exception carries the
completely unchanged state — no file handle, recording flag still false. -/
theorem bare_name_start_raises (img : Image) (w : World) (f : PyStr)
    (hrec : w.cam.recording_video = false)
    (hsl : slashC ∉ f) (hbs : backslashC ∉ f) :
    start_recording img w f = .error (.fileNotFoundError, w) := by
  have hns := normalizeName_bare f hsl hbs
  have hres : resolveTarget w.fs f = (w.fs, .error .fileNotFoundError) := by
    unfold resolveTarget
    simp only [pySplit_not_mem slashC _ hns]
    simp [pyJoin, listdir]
  unfold start_recording
  rw [hrec]
  simp only [Bool.false_eq_true, if_false, hres]

/-- Witness for `bare_name_start_raises`: recording to "clip.twv" from the
startup world raises FileNotFoundError with the world unchanged. -/
theorem bare_name_start_raises_witness :
    start_recording (imgD 0) (runStartupWorld fsD) bareName
      = .error (.fileNotFoundError, runStartupWorld fsD) :=
  bare_name_start_raises (imgD 0) (runStartupWorld fsD) bareName rfl
    (by decide) (by decide)

lemma makedirs_files (fs : FileSystem) (path : PyStr) :
    (makedirs fs path).files = fs.files := by
  unfold makedirs
  by_cases h : path ∈ fs.dirs <;> simp [h]

/-- An already-normalized name is unchanged by the extension fix and the
backslash replacement. -/
lemma normalizeName_eq_self (f : PyStr) (hsuf : twvExt.isSuffixOf f)
    (hbs : backslashC ∉ f) : normalizeName f = f := by
  rw [normalizeName]
  simp only [hsuf, if_true]
  exact pyReplaceChar_not_mem _ _ _ hbs

/-- When the target resolution is known to succeed with name `n`, a start
from idle succeeds and the resulting world is fully characterized: handle on
`n`, recording on, counter 0, and the filesystem after open-truncate plus the
placeholder write. -/
lemma start_recording_resolved {img : Image} {w : World} {f : PyStr}
    {fs1 : FileSystem} {n : PyStr}
    (hrec : w.cam.recording_video = false)
    (hres : resolveTarget w.fs f = (fs1, .ok n)) :
    ∃ w', start_recording img w f = .ok w' ∧
      w'.cam.video_file = some n ∧
      w'.cam.recording_video = true ∧
      w'.cam.frames_recorded = 0 ∧
      w'.fs = writeHeaderRegion (openWb fs1 n) n placeholderHeader := by
  unfold start_recording
  rw [hrec]
  simp only [Bool.false_eq_true, if_false, hres]
  refine ⟨_, rfl, ?_, ?_, ?_, ?_⟩ <;>
    rcases hc : w.cam.converted_image with _ | i <;>
    by_cases hstr : w.cam.isStreaming <;>
    simp [hc, hstr]

/-- C7: recording (from idle) to a path whose exact file name already exists
in the target directory opens the file with a literal "1" inserted before the
last "." (a different, longer name), leaves the pre-existing original file
untouched, and truncates the alternate name to a fresh placeholder-only file
whether or not it existed — the existence check is performed exactly once. -/
theorem collision_inserts_one (img : Image) (cam : CamState) (fs : FileSystem)
    (f : PyStr) (c : VideoFileContent)
    (hrec : cam.recording_video = false)
    (hsuf : twvExt.isSuffixOf f)
    (hbs : backslashC ∉ f)
    (hdir : dirnameOf f ≠ [])
    (hex : lookupFile fs f = some c) :
    ∃ w', start_recording img { fs := fs, cam := cam } f = .ok w' ∧
      w'.cam.video_file = some (addOneToName f) ∧
      addOneToName f ≠ f ∧
      lookupFile w'.fs f = some c ∧
      lookupFile w'.fs (addOneToName f)
        = some { headerRegion := some placeholderHeader, frames := [] } := by
  have hnorm : normalizeName f = f := normalizeName_eq_self f hsuf hbs
  have hls : listdir (makedirs fs (dirnameOf f)) (dirnameOf f)
      = .ok (fs.files.filterMap fun kv =>
          if dirnameOf kv.1 = dirnameOf f then some (basenameOf kv.1) else none) := by
    unfold listdir
    rw [if_neg hdir, if_pos (makedirs_mem fs _), makedirs_files]
  have hmem : basenameOf f ∈ fs.files.filterMap fun kv =>
      if dirnameOf kv.1 = dirnameOf f then some (basenameOf kv.1) else none :=
    List.mem_filterMap.mpr ⟨(f, c), assocGet_mem hex, by simp⟩
  have hres : resolveTarget fs f = (makedirs fs (dirnameOf f), .ok (addOneToName f)) := by
    unfold resolveTarget
    simp only [hnorm]
    rw [show pyJoin slashC ((pySplit slashC f).dropLast) = dirnameOf f from rfl]
    rw [if_pos hdir, hls]
    rw [show (pySplit slashC f).getLastD [] = basenameOf f from rfl]
    simp only [hmem, if_pos]
  have hne : addOneToName f ≠ f := addOneToName_ne f hsuf
  obtain ⟨w', hstart, hvf, _, _, hfs⟩ :=
    @start_recording_resolved img { fs := fs, cam := cam } f
      (makedirs fs (dirnameOf f)) (addOneToName f) hrec hres
  refine ⟨w', hstart, hvf, hne, ?_, ?_⟩
  · rw [hfs, lookupFile_writeHeaderRegion_ne _ _ _ _ (Ne.symm hne),
      lookupFile_openWb_ne _ _ _ (Ne.symm hne), lookupFile_makedirs]
    exact hex
  · rw [hfs, lookupFile_writeHeaderRegion_self _ _ _ _ (lookupFile_openWb_self _ _)]

/-- A pre-existing file at "d/a.twv" in directory "d". -/
def fsD1 : FileSystem :=
  { dirs := [dirD], files := [(nameA, { headerRegion := none, frames := [] })] }

/-- Witness for `collision_inserts_one`: recording to the existing "d/a.twv"
opens "d/a1.twv" and leaves "d/a.twv" untouched. -/
theorem collision_inserts_one_witness :
    ∃ w', start_recording (imgD 5)
        { fs := fsD1, cam := { initCamState with isStreaming := true } } nameA
        = .ok w' ∧
      w'.cam.video_file = some (addOneToName nameA) ∧
      addOneToName nameA ≠ nameA ∧
      lookupFile w'.fs nameA = some { headerRegion := none, frames := [] } ∧
      lookupFile w'.fs (addOneToName nameA)
        = some { headerRegion := some placeholderHeader, frames := [] } :=
  collision_inserts_one (imgD 5) { initCamState with isStreaming := true } fsD1
    nameA { headerRegion := none, frames := [] } rfl (by decide) (by decide)
    (by decide) rfl

/-- The program state at the point an operation returns or raises: Python
leaves all mutations made before a raise in place. -/
def resultWorld : Except (PyErr × World) World → World
  | .ok w => w
  | .error (_, w) => w

/-- The C8 invariant: the output file handle exists iff recording is active. -/
def RecInv (w : World) : Prop :=
  w.cam.video_file.isSome = w.cam.recording_video

lemma recInv_capture (img : Image) (w : World) (h : RecInv w) :
    RecInv (resultWorld (capture img w)) ∧
    w.cam.frames_recorded ≤ (resultWorld (capture img w)).cam.frames_recorded ∧
    (w.cam.recording_video = false →
      (resultWorld (capture img w)).cam.frames_recorded = w.cam.frames_recorded) := by
  by_cases hrec : w.cam.recording_video = true
  · obtain ⟨n, hn⟩ : ∃ n, w.cam.video_file = some n := by
      rcases hv : w.cam.video_file with _ | n
      · rw [RecInv, hv, hrec] at h
        simp at h
      · exact ⟨n, rfl⟩
    refine ⟨?_, ?_, ?_⟩ <;>
      simp [capture, add_frame_to_video, hrec, hn, resultWorld, RecInv]
  · have hrecf : w.cam.recording_video = false := by simpa using hrec
    refine ⟨by simpa [capture, hrecf, resultWorld, RecInv] using h, ?_, ?_⟩ <;>
      simp [capture, hrecf, resultWorld]

lemma recInv_add_frame (w : World) (h : RecInv w) :
    RecInv (resultWorld (add_frame_to_video w)) ∧
    w.cam.frames_recorded ≤ (resultWorld (add_frame_to_video w)).cam.frames_recorded := by
  rcases hc : w.cam.converted_image with _ | i
  · exact ⟨by simpa [add_frame_to_video, hc, resultWorld, RecInv] using h,
      by simp [add_frame_to_video, hc, resultWorld]⟩
  · rcases hv : w.cam.video_file with _ | n
    · exact ⟨by simpa [add_frame_to_video, hc, hv, resultWorld, RecInv] using h,
        by simp [add_frame_to_video, hc, hv, resultWorld]⟩
    · have h' : w.cam.recording_video = true := by
        rw [RecInv, hv] at h
        simpa using h.symm
      constructor <;> simp [add_frame_to_video, hc, hv, resultWorld, RecInv, h']

lemma recInv_stop (cfg : CamConfig) (writeOk : Bool) (w : World) (h : RecInv w) :
    RecInv (resultWorld (stop_recording cfg writeOk w)) ∧
    (resultWorld (stop_recording cfg writeOk w)).cam.frames_recorded
      = w.cam.frames_recorded := by
  by_cases hrec : w.cam.recording_video = true
  · obtain ⟨n, hn⟩ : ∃ n, w.cam.video_file = some n := by
      rcases hv : w.cam.video_file with _ | n
      · rw [RecInv, hv, hrec] at h
        simp at h
      · exact ⟨n, rfl⟩
    cases writeOk <;> constructor <;>
      simp [stop_recording, hrec, hn, resultWorld, RecInv, h]
  · have hrecf : w.cam.recording_video = false := by simpa using hrec
    rw [stop_recording_not_recording cfg writeOk w hrecf]
    exact ⟨h, rfl⟩

lemma recInv_start (img : Image) (w : World) (f : PyStr) (h : RecInv w) :
    RecInv (resultWorld (start_recording img w f)) ∧
    (w.cam.recording_video = true → start_recording img w f = .ok w) := by
  by_cases hrec : w.cam.recording_video = true
  · rw [start_recording_noop img w f hrec]
    exact ⟨h, fun _ => rfl⟩
  · have hrecf : w.cam.recording_video = false := by simpa using hrec
    refine ⟨?_, fun hr => absurd hr hrec⟩
    rcases hres : resolveTarget w.fs f with ⟨fs1, res⟩
    cases res with
    | error e =>
      unfold start_recording
      rw [hrecf]
      simp only [Bool.false_eq_true, if_false, hres]
      simpa [resultWorld, RecInv] using h
    | ok n =>
      obtain ⟨w', hstart, hvf, hrv, _, _⟩ := start_recording_resolved hrecf hres
      rw [hstart]
      rw [RecInv]
      simp [resultWorld, hvf, hrv]

/-- C8: every recording operation (start, stop, add_frame, capture) preserves
the handle-iff-active invariant; the frame counter never decreases across
capture and add_frame, is frozen by stop (both the finalize and the idle
no-op), is unchanged by capture while idle, and a start while a session is
already active changes nothing at all. -/
theorem recording_state_invariants (cfg : CamConfig) (writeOk : Bool)
    (img : Image) (f : PyStr) (w : World) (h : RecInv w) :
    (RecInv (resultWorld (capture img w)) ∧
      w.cam.frames_recorded ≤ (resultWorld (capture img w)).cam.frames_recorded ∧
      (w.cam.recording_video = false →
        (resultWorld (capture img w)).cam.frames_recorded
          = w.cam.frames_recorded)) ∧
    (RecInv (resultWorld (add_frame_to_video w)) ∧
      w.cam.frames_recorded
        ≤ (resultWorld (add_frame_to_video w)).cam.frames_recorded) ∧
    (RecInv (resultWorld (stop_recording cfg writeOk w)) ∧
      (resultWorld (stop_recording cfg writeOk w)).cam.frames_recorded
        = w.cam.frames_recorded) ∧
    (RecInv (resultWorld (start_recording img w f)) ∧
      (w.cam.recording_video = true → start_recording img w f = .ok w)) :=
  ⟨recInv_capture img w h, recInv_add_frame w h,
   recInv_stop cfg writeOk w h, recInv_start img w f h⟩

/-- The three stages of one loop iteration, in source order (bfly.py lines
847-859): the frame fetch. -/
def captureStage (e : TickEnv) (sw : Signals × World) :
    Except (PyErr × World) (Signals × World) :=
  match capture e.frame sw.2 with
  | .error ew => .error ew
  | .ok w' => .ok (sw.1, w')

/-- Second stage: servicing of the stop-recording signal (the flag is not
cleared, mirroring lines 849-851). -/
def recStopStage (cfg : CamConfig) (e : TickEnv) (sw : Signals × World) :
    Except (PyErr × World) (Signals × World) :=
  if sw.1.recStop then
    match stop_recording cfg e.headerWriteOk sw.2 with
    | .error ew => .error ew
    | .ok w' => .ok (sw.1, w')
  else .ok sw

/-- Third stage: servicing of the start-recording signal, then clearing it
(lines 853-859). -/
def recStartStage (e : TickEnv) (sw : Signals × World) :
    Except (PyErr × World) (Signals × World) :=
  if sw.1.recStart then
    match start_recording e.frame sw.2 sw.1.fname with
    | .error ew => .error ew
    | .ok w' => .ok ({ sw.1 with recStart := false }, w')
  else .ok sw

/-- One loop iteration is exactly the composition capture-then-stop-then-start
of the three stages. -/
lemma tick_eq_stages (cfg : CamConfig) (e : TickEnv) (sig : Signals) (w : World) :
    tick cfg e sig w =
      Except.bind (captureStage e (sig, w))
        (fun sw => Except.bind (recStopStage cfg e sw) (recStartStage e)) := by
  unfold tick captureStage recStopStage recStartStage
  cases capture e.frame w with
  | error ew => rfl
  | ok w1 =>
    by_cases hs : sig.recStop
    · simp only [Except.bind, hs, if_true]
      cases stop_recording cfg e.headerWriteOk w1 with
      | error ew => rfl
      | ok w2 =>
        by_cases hst : sig.recStart
        · simp only [hst, if_true]
          cases start_recording e.frame w2 sig.fname <;> simp [hs]
        · simp [hst]
    · simp only [Except.bind, hs, if_false, Bool.false_eq_true]

/-- The world at the point a loop iteration returns or raises. -/
def tickResultWorld : Except (PyErr × World) (Signals × World) → World
  | .ok (_, w) => w
  | .error (_, w) => w

/-- The C9 invariant: while a session is active the camera holds an open
handle on a file whose header region still holds the zero placeholder (only
`stop_recording` ever rewrites it, and doing so ends the session) and whose
record count equals the session counter. -/
def SessionInv (w : World) : Prop :=
  w.cam.recording_video = true →
    ∃ n c, w.cam.video_file = some n ∧
      lookupFile w.fs n = some c ∧
      c.headerRegion = some placeholderHeader ∧
      c.frames.length = w.cam.frames_recorded

/-- The invariant applied to a stage result (at return or raise). -/
def SWInv (r : Except (PyErr × World) (Signals × World)) : Prop :=
  SessionInv (tickResultWorld r)

lemma sessionInv_capture (img : Image) (w : World) (h : SessionInv w) :
    SessionInv (resultWorld (capture img w)) := by
  by_cases hrec : w.cam.recording_video = true
  · obtain ⟨n, c, hvf, hlook, hhdr, hlen⟩ := h hrec
    rw [capture_active img ⟨hrec, hvf, hlook⟩]
    intro _
    exact ⟨n,
      { c with frames := c.frames
          ++ [mkRecord w.cam.video_start_time w.cam.frames_recorded img] },
      by simpa [resultWorld] using hvf,
      lookupFile_appendFrameRecord_self _ _ _ _ hlook,
      by simpa using hhdr,
      by simp [resultWorld, hlen]⟩
  · rw [capture_not_recording img w (by simpa using hrec)]
    intro h'
    simp [resultWorld] at h'
    exact absurd h' hrec

lemma sessionInv_stop (cfg : CamConfig) (writeOk : Bool) (w : World)
    (h : SessionInv w) :
    SessionInv (resultWorld (stop_recording cfg writeOk w)) := by
  by_cases hrec : w.cam.recording_video = true
  · obtain ⟨n, c, hvf, hlook, hhdr, hlen⟩ := h hrec
    cases writeOk with
    | false =>
      rw [stop_recording_write_fails cfg w n hrec hvf]
      exact h
    | true =>
      rw [stop_recording_active cfg ⟨hrec, hvf, hlook⟩]
      intro h'
      simp [resultWorld] at h'
  · rw [stop_recording_not_recording cfg writeOk w (by simpa using hrec)]
    exact h

lemma sessionInv_start (img : Image) (w : World) (f : PyStr)
    (h : SessionInv w) :
    SessionInv (resultWorld (start_recording img w f)) := by
  by_cases hrec : w.cam.recording_video = true
  · rw [start_recording_noop img w f hrec]
    exact h
  · have hrecf : w.cam.recording_video = false := by simpa using hrec
    rcases hres : resolveTarget w.fs f with ⟨fs1, res⟩
    cases res with
    | error e =>
      unfold start_recording
      rw [hrecf]
      simp only [Bool.false_eq_true, if_false, hres]
      intro h'
      simp [resultWorld] at h'
      exact absurd h' hrec
    | ok n =>
      obtain ⟨w', hstart, hvf, hrv, hfr, hfs⟩ := start_recording_resolved hrecf hres
      rw [hstart]
      intro _
      refine ⟨n, { headerRegion := some placeholderHeader, frames := [] },
        by simpa [resultWorld] using hvf, ?_, rfl, by simp [resultWorld, hfr]⟩
      simp only [resultWorld]
      rw [hfs, lookupFile_writeHeaderRegion_self _ _ _ _ (lookupFile_openWb_self fs1 n)]

lemma swInv_captureStage (e : TickEnv) (sw : Signals × World)
    (h : SessionInv sw.2) : SWInv (captureStage e sw) := by
  unfold captureStage SWInv
  have h1 := sessionInv_capture e.frame sw.2 h
  cases hcap : capture e.frame sw.2 with
  | error ew =>
    rw [hcap] at h1
    obtain ⟨err, wa⟩ := ew
    simpa [tickResultWorld, resultWorld] using h1
  | ok w1 =>
    rw [hcap] at h1
    simpa [tickResultWorld, resultWorld] using h1

lemma swInv_recStopStage (cfg : CamConfig) (e : TickEnv) (sw : Signals × World)
    (h : SessionInv sw.2) : SWInv (recStopStage cfg e sw) := by
  unfold recStopStage SWInv
  by_cases hs : sw.1.recStop
  · simp only [hs, if_true]
    have h1 := sessionInv_stop cfg e.headerWriteOk sw.2 h
    cases hstp : stop_recording cfg e.headerWriteOk sw.2 with
    | error ew =>
      rw [hstp] at h1
      obtain ⟨err, wa⟩ := ew
      simpa [tickResultWorld, resultWorld] using h1
    | ok w1 =>
      rw [hstp] at h1
      simpa [tickResultWorld, resultWorld] using h1
  · simpa [hs, tickResultWorld] using h

lemma swInv_recStartStage (e : TickEnv) (sw : Signals × World)
    (h : SessionInv sw.2) : SWInv (recStartStage e sw) := by
  unfold recStartStage SWInv
  by_cases hs : sw.1.recStart
  · simp only [hs, if_true]
    have h1 := sessionInv_start e.frame sw.2 sw.1.fname h
    cases hsta : start_recording e.frame sw.2 sw.1.fname with
    | error ew =>
      rw [hsta] at h1
      obtain ⟨err, wa⟩ := ew
      simpa [tickResultWorld, resultWorld] using h1
    | ok w1 =>
      rw [hsta] at h1
      simpa [tickResultWorld, resultWorld] using h1
  · simpa [hs, tickResultWorld] using h

lemma swInv_bind {x : Except (PyErr × World) (Signals × World)}
    {f : Signals × World → Except (PyErr × World) (Signals × World)}
    (hx : SWInv x) (hf : ∀ sw, SessionInv sw.2 → SWInv (f sw)) :
    SWInv (Except.bind x f) := by
  cases x with
  | error e => simpa [Except.bind] using hx
  | ok sw =>
    simp only [Except.bind]
    exact hf sw (by simpa [SWInv, tickResultWorld] using hx)

lemma sessionInv_tick (cfg : CamConfig) (e : TickEnv) (sig : Signals)
    (w : World) (h : SessionInv w) : SWInv (tick cfg e sig w) := by
  rw [tick_eq_stages]
  exact swInv_bind (swInv_captureStage e (sig, w) h)
    fun sw hsw => swInv_bind (swInv_recStopStage cfg e sw hsw)
      fun sw2 hsw2 => swInv_recStartStage e sw2 hsw2

lemma sessionInv_runLoop (cfg : CamConfig) :
    ∀ (trace : List TickEnv) (sig : Signals) (w : World), SessionInv w →
      SessionInv (runLoop cfg trace sig w).2.1 := by
  intro trace
  induction trace with
  | nil =>
    intro sig w h
    simpa [runLoop] using h
  | cons e rest ih =>
    intro sig w h
    rw [runLoop]
    cases hstop : (applyController sig e).stopped with
    | true => simpa [hstop] using h
    | false =>
      simp only [hstop, Bool.false_eq_true, if_false]
      have ht := sessionInv_tick cfg e (applyController sig e) w h
      cases htk : tick cfg e (applyController sig e) w with
      | ok sw =>
        rw [htk] at ht
        obtain ⟨sig', w'⟩ := sw
        exact ih sig' w' (by simpa [SWInv, tickResultWorld] using ht)
      | error ew =>
        rw [htk] at ht
        obtain ⟨err, w'⟩ := ew
        simpa [SWInv, tickResultWorld] using ht

lemma sessionInv_closeCam (w : World) (h : SessionInv w) :
    SessionInv (closeCam w) := by
  intro h'
  simp only [closeCam] at h'
  obtain ⟨n, c, hvf, hlook, hhdr, hlen⟩ := h (by simpa using h')
  exact ⟨n, c, by simpa [closeCam] using hvf, by simpa [closeCam, lookupFile] using hlook,
    hhdr, by simpa [closeCam] using hlen⟩

/-- The startup world carries the (vacuous) session invariant. -/
lemma sessionInv_runStartupWorld (fs : FileSystem) :
    SessionInv (runStartupWorld fs) := by
  intro h
  simp [runStartupWorld, initCamState] at h

lemma cameraProcessRun_eq (cfg : CamConfig) (trace : List TickEnv)
    (fs : FileSystem) :
    cameraProcessRun cfg trace fs =
      ((runLoop cfg trace initSignals (runStartupWorld fs)).1,
        closeCam (runLoop cfg trace initSignals (runStartupWorld fs)).2.1,
        (runLoop cfg trace initSignals (runStartupWorld fs)).2.2) := by
  unfold cameraProcessRun
  rcases runLoop cfg trace initSignals (runStartupWorld fs) with ⟨s, w, err⟩
  rfl

/-- C9: if the stop-streaming signal is observed while a recording session is
active, the loop (and the close in the `finally` block) exits without ever
finalizing the header: the output file still holds the all-zero placeholder
header — its RecordedFrames field reads 0 — while it contains one frame
record per frame recorded in the session. -/
theorem stop_streaming_leaves_placeholder (cfg : CamConfig)
    (trace : List TickEnv) (fs : FileSystem)
    (_hstop : (cameraProcessRun cfg trace fs).1.stopped = true)
    (hrec : (cameraProcessRun cfg trace fs).2.1.cam.recording_video = true) :
    ∃ n c, (cameraProcessRun cfg trace fs).2.1.cam.video_file = some n ∧
      lookupFile (cameraProcessRun cfg trace fs).2.1.fs n = some c ∧
      c.headerRegion = some placeholderHeader ∧
      placeholderHeader.RecordedFrames = 0 ∧
      c.frames.length = (cameraProcessRun cfg trace fs).2.1.cam.frames_recorded := by
  have hinv : SessionInv (cameraProcessRun cfg trace fs).2.1 := by
    rw [cameraProcessRun_eq]
    exact sessionInv_closeCam _
      (sessionInv_runLoop cfg trace initSignals _ (sessionInv_runStartupWorld fs))
  obtain ⟨n, c, hvf, hlook, hhdr, hlen⟩ := hinv hrec
  exact ⟨n, c, hvf, hlook, hhdr, rfl, hlen⟩

/-- A plain loop tick: no controller action, frame timestamp `t` ns. -/
def tickD (t : Nat) : TickEnv :=
  { setStopped := false, setRecStart := false, setRecStop := false
    setFname := none, frame := imgD t, headerWriteOk := true }

/-- Controller script for C9: start recording to "d/a.twv", two plain ticks,
then stop-streaming with the session still active. -/
def c9trace : List TickEnv :=
  [{ tickD 0 with setRecStart := true, setFname := some nameA },
   tickD 10, tickD 20,
   { tickD 30 with setStopped := true }]

/-- Witness for `stop_streaming_leaves_placeholder` on the concrete C9 trace:
the loop exits with two frames on disk and the placeholder still in place. -/
theorem stop_streaming_leaves_placeholder_witness :
    ∃ n c, (cameraProcessRun cfgD c9trace fsD).2.1.cam.video_file = some n ∧
      lookupFile (cameraProcessRun cfgD c9trace fsD).2.1.fs n = some c ∧
      c.headerRegion = some placeholderHeader ∧
      placeholderHeader.RecordedFrames = 0 ∧
      c.frames.length
        = (cameraProcessRun cfgD c9trace fsD).2.1.cam.frames_recorded :=
  stop_streaming_leaves_placeholder cfgD c9trace fsD rfl rfl

/-- A concrete world with a freshly started session on "d/a.twv" (placeholder
written, no frames yet, current frame at timestamp 0). -/
def c5world : World :=
  { fs := { dirs := [dirD]
            files := [(nameA, { headerRegion := some placeholderHeader, frames := [] })] }
    cam := { recording_video := true, video_file := some nameA, frames_recorded := 0
             video_start_time := 0, converted_image := some (imgD 0), isStreaming := true } }

/-- Both a stop-recording and a start-recording request pending on one tick. -/
def c5sig : Signals :=
  { stopped := false, recStart := true, recStop := true, fname := nameB }

/-- The result of that tick. -/
def c5res : Signals × World :=
  match tick cfgD (tickD 10) c5sig c5world with
  | .ok sw => sw
  | .error _ => (c5sig, c5world)

/-- C5: every loop iteration is exactly the composition frame-fetch, then
stop-recording service, then start-recording service; consequently, when a
stop and a start are observed on the same tick, the tick's frame goes to the
old session (which is finalized counting it) and the new session opens with
zero frames — the two requests cannot both apply to the same frame. -/
theorem tick_order_capture_stop_start :
    (∀ (cfg : CamConfig) (e : TickEnv) (sig : Signals) (w : World),
      tick cfg e sig w =
        Except.bind (captureStage e (sig, w))
          (fun sw => Except.bind (recStopStage cfg e sw) (recStartStage e))) ∧
    (tick cfgD (tickD 10) c5sig c5world = .ok c5res ∧
      lookupFile c5res.2.fs nameA
        = some { headerRegion := some (finalVideoHeader cfgD 1)
                 frames := [mkRecord 0 0 (imgD 10)] } ∧
      c5res.2.cam.video_file = some nameB ∧
      c5res.2.cam.frames_recorded = 0 ∧
      lookupFile c5res.2.fs nameB
        = some { headerRegion := some placeholderHeader, frames := [] }) :=
  ⟨tick_eq_stages, rfl, rfl, rfl, rfl, rfl⟩

/-- Controller script for C4: start a session, record one plain tick, request
stop-recording once, then request start-recording again and run one more
plain tick.  The stop flag is raised exactly once, at the third tick. -/
def c4trace : List TickEnv :=
  [{ tickD 0 with setRecStart := true, setFname := some nameA },
   tickD 10,
   { tickD 20 with setRecStop := true },
   { tickD 30 with setRecStart := true },
   tickD 40]

/-- C4 evaluated at the failing input: the loop clears `recStart` after
servicing it but never clears `recStop`, so after the single stop request
(serviced at tick 3, closing "d/a.twv" with 2 frames) the flag is still set
at the end of the run, and the second session ("d/a1.twv", started at tick 4)
is spuriously stopped by the stale flag at tick 5 after a single frame. -/
theorem stop_flag_never_cleared :
    (cameraProcessRun cfgD c4trace fsD).1.recStop = true ∧
    ((lookupFile (cameraProcessRun cfgD c4trace fsD).2.1.fs nameA).map
        fun c => ((c.headerRegion.map fun hd => hd.RecordedFrames), c.frames.length))
      = some (some 2, 2) ∧
    ((lookupFile (cameraProcessRun cfgD c4trace fsD).2.1.fs nameA1).map
        fun c => ((c.headerRegion.map fun hd => hd.RecordedFrames), c.frames.length))
      = some (some 1, 1) ∧
    (cameraProcessRun cfgD c4trace fsD).2.1.cam.recording_video = false :=
  ⟨rfl, rfl, rfl, rfl⟩

/-- Witness for `recording_state_invariants` at the concrete active-session
state of C1 (two frames recorded, handle open on "d/a.twv"). -/
theorem recording_state_invariants_witness :
    (RecInv (resultWorld (capture (imgD 42) c1w2)) ∧
      c1w2.cam.frames_recorded
        ≤ (resultWorld (capture (imgD 42) c1w2)).cam.frames_recorded ∧
      (c1w2.cam.recording_video = false →
        (resultWorld (capture (imgD 42) c1w2)).cam.frames_recorded
          = c1w2.cam.frames_recorded)) ∧
    (RecInv (resultWorld (add_frame_to_video c1w2)) ∧
      c1w2.cam.frames_recorded
        ≤ (resultWorld (add_frame_to_video c1w2)).cam.frames_recorded) ∧
    (RecInv (resultWorld (stop_recording cfgD false c1w2)) ∧
      (resultWorld (stop_recording cfgD false c1w2)).cam.frames_recorded
        = c1w2.cam.frames_recorded) ∧
    (RecInv (resultWorld (start_recording (imgD 42) c1w2 nameB)) ∧
      (c1w2.cam.recording_video = true →
        start_recording (imgD 42) c1w2 nameB = .ok c1w2)) :=
  recording_state_invariants cfgD false (imgD 42) nameB c1w2 rfl

end Bfly
